import Mathlib

/-!
Shallow embedding of the todo-list state engine of this repository:
the reducer `todoReducer` and the provider action wrappers from
`src/contexts/TodoContext.tsx`, the view projection from
`src/components/TodoList.tsx`, and the initialization (restoration)
logic of the Todo and Theme providers.

External collaborators (the `Date.now()` clock, the result of
`localStorage.getItem`, and the JavaScript builtin `JSON.parse`) are
modelled as explicit parameters: the clock as a natural number `now`
(milliseconds since the epoch), the storage read as an
`Option String` (with `Except` wrapping where the surrounding
`try`/`catch` also guards the read itself), and `JSON.parse` as a
function `String → Except Unit JVal` returning either a parsed JSON
value or a thrown error.
-/

/-- Model of the whitespace class trimmed by the JavaScript builtin
`String.prototype.trim` (space, tab, and line terminators). -/
def isJsSpace (c : Char) : Bool :=
  c = ' ' || c = '\t' || c = '\n' || c = '\r' || c = '\x0b' || c = '\x0c'

/-- Model of the JavaScript builtin `String.prototype.trim`: drop
leading and trailing whitespace. -/
def jsTrim (s : String) : String :=
  (((s.data.dropWhile isJsSpace).reverse.dropWhile isJsSpace).reverse).asString

/-- The `Todo` interface of `TodoContext.tsx`: `id`, `text`, `completed`. -/
structure Todo where
  id : String
  text : String
  completed : Bool
deriving DecidableEq, Repr

/-- The discriminated action union `TodoAction` of `TodoContext.tsx`. -/
inductive TodoAction where
  | ADD_TODO (payload : String)
  | TOGGLE_TODO (payload : String)
  | DELETE_TODO (payload : String)
  | EDIT_TODO (id newText : String)
  | CLEAR_COMPLETED
  | LOAD_TODOS (payload : List Todo)

/-- The pure reducer `todoReducer` of `TodoContext.tsx`.  The `now`
parameter is the value of `Date.now()` at dispatch time; the source
reads it inside the `ADD_TODO` branch (`Date.now().toString()`) and the
other branches ignore it. -/
def todoReducer (now : Nat) (state : List Todo) (action : TodoAction) : List Todo :=
  match action with
  | .ADD_TODO payload =>
      state ++ [{ id := toString now, text := payload, completed := false }]
  | .TOGGLE_TODO payload =>
      state.map fun todo =>
        if todo.id = payload then { todo with completed := !todo.completed } else todo
  | .DELETE_TODO payload =>
      state.filter fun todo => todo.id != payload
  | .EDIT_TODO id newText =>
      state.map fun todo =>
        if todo.id = id then { todo with text := newText } else todo
  | .CLEAR_COMPLETED =>
      state.filter fun todo => !todo.completed
  | .LOAD_TODOS payload => payload

/-- The provider action `addTodo` of `TodoContext.tsx`: dispatches
`ADD_TODO` with the trimmed text when `text.trim()` is truthy
(a non-empty string), otherwise does nothing. -/
def addTodo (now : Nat) (text : String) (state : List Todo) : List Todo :=
  if jsTrim text ≠ "" then todoReducer now state (.ADD_TODO (jsTrim text)) else state

/-- The provider action `toggleTodo` of `TodoContext.tsx`. -/
def toggleTodo (now : Nat) (id : String) (state : List Todo) : List Todo :=
  todoReducer now state (.TOGGLE_TODO id)

/-- The provider action `deleteTodo` of `TodoContext.tsx`. -/
def deleteTodo (now : Nat) (id : String) (state : List Todo) : List Todo :=
  todoReducer now state (.DELETE_TODO id)

/-- The provider action `editTodo` of `TodoContext.tsx`: dispatches
`EDIT_TODO` with the trimmed text when `newText.trim()` is truthy,
otherwise does nothing. -/
def editTodo (now : Nat) (id newText : String) (state : List Todo) : List Todo :=
  if jsTrim newText ≠ "" then todoReducer now state (.EDIT_TODO id (jsTrim newText)) else state

/-- The provider action `clearCompleted` of `TodoContext.tsx`. -/
def clearCompleted (now : Nat) (state : List Todo) : List Todo :=
  todoReducer now state .CLEAR_COMPLETED

/-- A session consisting of a sequence of `addTodo` calls: each call is
a pair of the `Date.now()` value observed at its dispatch and the text
argument. -/
def runAdds (calls : List (Nat × String)) (state : List Todo) : List Todo :=
  match calls with
  | [] => state
  | (now, text) :: rest => runAdds rest (addTodo now text state)

/-- The `FilterType` union of `FilterContext.tsx`: `all`, `active`,
`completed`. -/
inductive FilterType where
  | all
  | active
  | completed
deriving DecidableEq

/-- The `filteredTodos` memo of `TodoList.tsx` (the view projection):
`active` keeps the incomplete todos, `completed` keeps the completed
ones, `all` returns the collection itself. -/
def filteredTodos (todos : List Todo) (filter : FilterType) : List Todo :=
  match filter with
  | .active => todos.filter fun todo => !todo.completed
  | .completed => todos.filter fun todo => todo.completed
  | .all => todos

/-- The `completedCount` memo of `TodoList.tsx`. -/
def completedCount (todos : List Todo) : Nat :=
  (todos.filter fun todo => todo.completed).length

/-- The `activeCount` memo of `TodoList.tsx`. -/
def activeCount (todos : List Todo) : Nat :=
  (todos.filter fun todo => !todo.completed).length

/-- A JSON value, the possible results of the JavaScript builtin
`JSON.parse`. -/
inductive JVal where
  | null
  | bool (b : Bool)
  | num (n : Int)
  | str (s : String)
  | arr (elems : List JVal)
  | obj (fields : List (String × JVal))

/-- The mount effect of `TodoProvider` in `TodoContext.tsx` combined
with the `LOAD_TODOS` branch of the reducer, expressed as the state it
leaves behind.  `stored` is the result of
`localStorage.getItem('todos')` (`none` when the key is absent) and
`parse` models the builtin `JSON.parse` (`Except.error` when it
throws).  The source dispatches `LOAD_TODOS` with the parsed value
as-is whenever `savedTodos` is truthy (a non-empty string) and parsing
succeeds; any thrown error is caught and the initial empty collection
is kept.  The resulting state is a raw JSON value because no structural
validation is performed. -/
def initTodos (stored : Option String) (parse : String → Except Unit JVal) : JVal :=
  match stored with
  | none => JVal.arr []
  | some s =>
      if s = "" then JVal.arr []
      else
        match parse s with
        | .error _ => JVal.arr []
        | .ok v => v

/-- The lazy initializer of `ThemeProvider` in `ThemeContext.tsx`:
`stored` is the guarded read `localStorage.getItem('theme')`
(`Except.error` when the read throws, `Except.ok none` when the key is
absent).  The saved value is returned only when it is exactly
`"light"` or `"dark"`; every other outcome falls back to `"light"`. -/
def initTheme (stored : Except Unit (Option String)) : String :=
  match stored with
  | .error _ => "light"
  | .ok none => "light"
  | .ok (some s) => if s = "light" ∨ s = "dark" then s else "light"

/-- Decimal decoding of a digit-character list, the left inverse used
to show that `Nat.repr` (the model of `Number.prototype.toString`) is
injective. -/
def decodeDigits (l : List Char) : Nat :=
  l.foldl (fun a c => 10 * a + (c.toNat - 48)) 0

theorem toDigitsCore_append (f n : Nat) (ds : List Char) :
    Nat.toDigitsCore 10 f n ds = Nat.toDigitsCore 10 f n [] ++ ds := by
  induction f generalizing n ds with
  | zero => simp [Nat.toDigitsCore]
  | succ f ih =>
    simp only [Nat.toDigitsCore]
    by_cases h : n / 10 = 0
    · simp [h]
    · simp only [h, if_false]
      rw [ih (n / 10) (Nat.digitChar (n % 10) :: ds), ih (n / 10) [Nat.digitChar (n % 10)]]
      simp

theorem decode_digitChar (d : Nat) (h : d < 10) : (Nat.digitChar d).toNat - 48 = d := by
  interval_cases d <;> rfl

theorem decode_toDigitsCore (f n : Nat) (h : n < f) :
    decodeDigits (Nat.toDigitsCore 10 f n []) = n := by
  induction f generalizing n with
  | zero => omega
  | succ f ih =>
    simp only [Nat.toDigitsCore]
    by_cases h0 : n / 10 = 0
    · have hn : n < 10 := by omega
      have hm : n % 10 = n := Nat.mod_eq_of_lt hn
      simp [h0, decodeDigits, hm, decode_digitChar n hn]
    · simp only [h0, if_false]
      rw [toDigitsCore_append]
      have hd : n / 10 < f := by
        have hpos : 0 < n := by omega
        have : n / 10 < n := Nat.div_lt_self hpos (by norm_num)
        omega
      have hrec := ih (n / 10) hd
      simp [decodeDigits, List.foldl_append] at hrec ⊢
      rw [hrec]
      have hlt : n % 10 < 10 := Nat.mod_lt _ (by norm_num)
      rw [decode_digitChar _ hlt]
      omega

theorem decode_repr (n : Nat) : decodeDigits (Nat.repr n).data = n := by
  have h : (Nat.repr n).data = Nat.toDigits 10 n := by
    simp [Nat.repr, List.asString]
  rw [h]
  exact decode_toDigitsCore (n + 1) n (Nat.lt_succ_self n)

theorem natRepr_injective : Function.Injective Nat.repr := by
  intro m n h
  have hm := decode_repr m
  rw [h, decode_repr n] at hm
  exact hm.symm

theorem runAdds_map_id (calls : List (Nat × String)) (state : List Todo) :
    (runAdds calls state).map Todo.id
      = state.map Todo.id
        ++ (calls.filter fun c => jsTrim c.2 != "").map fun c => toString c.1 := by
  induction calls generalizing state with
  | nil => simp [runAdds]
  | cons c rest ih =>
    obtain ⟨now, text⟩ := c
    simp only [runAdds]
    rw [ih]
    by_cases h : jsTrim text = ""
    · simp [addTodo, h, List.filter_cons]
    · simp [addTodo, h, todoReducer, List.filter_cons]

theorem toggle_toggle (now now2 : Nat) (id : String) (state : List Todo) :
    toggleTodo now2 id (toggleTodo now id state) = state := by
  simp only [toggleTodo, todoReducer, List.map_map]
  have hpt : ∀ t : Todo,
      ((fun todo => if todo.id = id then { todo with completed := !todo.completed } else todo) ∘
        fun todo => if todo.id = id then { todo with completed := !todo.completed } else todo) t
        = t := by
    intro t
    obtain ⟨tid, ttext, tc⟩ := t
    by_cases ht : tid = id
    · subst ht
      simp [Function.comp, Bool.not_not]
    · simp [Function.comp, ht]
  rw [List.map_congr_left fun t _ => hpt t, List.map_id']

theorem toggle_no_match (now : Nat) (id : String) (state : List Todo)
    (h : id ∉ state.map Todo.id) : toggleTodo now id state = state := by
  simp only [toggleTodo, todoReducer]
  have hpt : ∀ t ∈ state,
      (if t.id = id then { t with completed := !t.completed } else t) = t := by
    intro t ht
    have : t.id ≠ id := by
      intro he
      exact h (List.mem_map.mpr ⟨t, ht, he⟩)
    simp [this]
  rw [List.map_congr_left hpt, List.map_id']

theorem filter_completed_length (l : List Todo) :
    (l.filter fun t => !t.completed).length + (l.filter fun t => t.completed).length
      = l.length := by
  induction l with
  | nil => rfl
  | cons t ts ih =>
    by_cases h : t.completed <;> simp [List.filter_cons, h] <;> omega

/-- Claim C1, as stated, fails on the code: `todoReducer` generates ids
with `Date.now().toString()`, so two `add` calls dispatched within the
same millisecond produce the same id.  Here two adds both observe
`Date.now() = 0` and the resulting ids are `"0"` and `"0"`. -/
theorem runAdds_same_tick_collision :
    ¬ (((runAdds [(0, "a"), (0, "b")] []).map Todo.id).Nodup) := by
  decide

/-- Claim C1 (amended): if the `Date.now()` values observed by the
`add` calls of a session are pairwise distinct, then the ids of all
resulting items are pairwise distinct, starting from the empty
collection. -/
theorem runAdds_nodup_of_distinct_ticks (calls : List (Nat × String))
    (h : (calls.map Prod.fst).Nodup) :
    ((runAdds calls []).map Todo.id).Nodup := by
  rw [runAdds_map_id]
  simp only [List.map_nil, List.nil_append]
  have hsub : ((calls.filter fun c => jsTrim c.2 != "").map Prod.fst).Sublist
      (calls.map Prod.fst) :=
    (List.filter_sublist calls).map Prod.fst
  have h2 : ((calls.filter fun c => jsTrim c.2 != "").map Prod.fst).Nodup := hsub.nodup h
  have h3 := h2.map natRepr_injective
  rw [List.map_map] at h3
  exact h3

/-- Witness for the amended claim C1 at a concrete session of three
adds (the third has whitespace-only text and appends nothing). -/
theorem runAdds_nodup_of_distinct_ticks_witness :
    (([(1000, " a "), (1001, "b"), (1002, "  ")].map Prod.fst).Nodup) ∧
    ((runAdds [(1000, " a "), (1001, "b"), (1002, "  ")] []).map Todo.id).Nodup :=
  ⟨by decide, runAdds_nodup_of_distinct_ticks _ (by decide)⟩

/-- Claim C2, as stated, fails on the code: the mount effect of
`TodoProvider` dispatches `LOAD_TODOS` with the result of `JSON.parse`
verbatim and performs no structural validation.  When the persisted
value under `'todos'` is the JSON literal `null` (the string `"null"`,
which `JSON.parse` maps to the JSON value `null`), the resulting state
is that `null`, not the empty collection. -/
theorem initTodos_null_counterexample :
    initTodos (some "null") (fun _ => Except.ok JVal.null) ≠ JVal.arr [] := by
  intro h
  exact JVal.noConfusion (show JVal.null = JVal.arr [] from h)

/-- Claim C2 (amended): initialization yields the empty collection,
raising no error, exactly when the persisted value is missing, is the
empty string, or fails to parse; a value that parses successfully —
including the JSON literal `null` or a structurally invalid array — is
loaded as the state verbatim, with no validation. -/
theorem initTodos_spec (parse : String → Except Unit JVal) (s : String) (v : JVal) :
    initTodos none parse = JVal.arr [] ∧
    initTodos (some "") parse = JVal.arr [] ∧
    (parse s = Except.error () → initTodos (some s) parse = JVal.arr []) ∧
    (s ≠ "" → parse s = Except.ok v → initTodos (some s) parse = v) := by
  refine ⟨rfl, rfl, ?_, ?_⟩
  · intro hp
    by_cases hs : s = ""
    · simp [initTodos, hs]
    · simp [initTodos, hs, hp]
  · intro hs hp
    simp [initTodos, hs, hp]

/-- Witness for the amended claim C2: a persisted array whose single
item lacks the `text` field is loaded verbatim. -/
theorem initTodos_spec_witness :
    ("itemWithoutText" ≠ "") ∧
    initTodos (some "itemWithoutText")
        (fun _ => Except.ok (JVal.arr [JVal.obj [("id", JVal.str "1")]]))
      = JVal.arr [JVal.obj [("id", JVal.str "1")]] :=
  ⟨by decide,
    (initTodos_spec _ "itemWithoutText" _).2.2.2 (by decide) rfl⟩

/-- Claim C3: `addTodo` is a no-op when the text trims to empty;
otherwise it appends exactly one item — trimmed text, `completed`
false, id generated from the dispatch-time clock — to the end, leaving
every pre-existing item unchanged in its position. -/
theorem addTodo_spec (now : Nat) (text : String) (state : List Todo) :
    (jsTrim text = "" → addTodo now text state = state) ∧
    (jsTrim text ≠ "" →
      addTodo now text state
        = state ++ [{ id := toString now, text := jsTrim text, completed := false }]) := by
  constructor
  · intro h
    simp [addTodo, h]
  · intro h
    simp [addTodo, h, todoReducer]

/-- Witness for claim C3 at a concrete input, covering both the
whitespace no-op branch and the appending branch. -/
theorem addTodo_spec_witness :
    (jsTrim "   " = "" ∧ addTodo 7 "   " [] = []) ∧
    (jsTrim " Buy milk " ≠ "" ∧
      addTodo 7 " Buy milk " []
        = [] ++ [{ id := toString 7, text := jsTrim " Buy milk ", completed := false }]) :=
  ⟨⟨by decide, (addTodo_spec 7 "   " []).1 (by decide)⟩,
    ⟨by decide, (addTodo_spec 7 " Buy milk " []).2 (by decide)⟩⟩

/-- Claim C4: `editTodo` is a no-op when the new text trims to empty;
otherwise the result relates pointwise to the old collection (same
length, same order): an item whose id matches carries the trimmed new
text with its `id` and `completed` unchanged, and every other item is
unchanged. -/
theorem editTodo_spec (now : Nat) (id newText : String) (state : List Todo) :
    (jsTrim newText = "" → editTodo now id newText state = state) ∧
    (jsTrim newText ≠ "" →
      List.Forall₂
        (fun t t' =>
          (t.id = id → t' = { id := t.id, text := jsTrim newText, completed := t.completed }) ∧
          (t.id ≠ id → t' = t))
        state (editTodo now id newText state)) := by
  constructor
  · intro h
    simp [editTodo, h]
  · intro h
    simp only [editTodo, h, if_pos, ne_eq, not_false_eq_true, if_true, todoReducer]
    rw [List.forall₂_map_right_iff]
    rw [List.forall₂_same]
    intro t _
    by_cases ht : t.id = id
    · simp [ht]
    · simp [ht]

/-- Witness for claim C4 at a concrete two-item collection: the
matching item gets the trimmed text, the other item is untouched. -/
theorem editTodo_spec_witness :
    jsTrim " new " ≠ "" ∧
    List.Forall₂
      (fun t t' =>
        (t.id = "1" → t' = { id := t.id, text := jsTrim " new ", completed := t.completed }) ∧
        (t.id ≠ "1" → t' = t))
      [⟨"1", "a", false⟩, ⟨"2", "b", true⟩]
      (editTodo 0 "1" " new " [⟨"1", "a", false⟩, ⟨"2", "b", true⟩]) :=
  ⟨by decide, (editTodo_spec 0 "1" " new " [⟨"1", "a", false⟩, ⟨"2", "b", true⟩]).2 (by decide)⟩

/-- Claim C5: `clearCompleted` returns exactly the subsequence of
items with `completed = false` in their original relative order: the
result is a sublist of the input, contains no completed item, keeps
every active item, and its length is the number of active items. -/
theorem clearCompleted_spec (now : Nat) (state : List Todo) :
    (clearCompleted now state).Sublist state ∧
    (∀ t ∈ clearCompleted now state, t.completed = false) ∧
    (∀ t ∈ state, t.completed = false → t ∈ clearCompleted now state) ∧
    (clearCompleted now state).length = state.countP fun t => !t.completed := by
  simp only [clearCompleted, todoReducer]
  refine ⟨List.filter_sublist state, ?_, ?_, (List.countP_eq_length_filter _ _).symm⟩
  · intro t ht
    have := (List.mem_filter.mp ht).2
    simpa using this
  · intro t ht h
    exact List.mem_filter.mpr ⟨ht, by simp [h]⟩

/-- Witness for claim C5 at a concrete collection of two active and
one completed item. -/
theorem clearCompleted_spec_witness :
    clearCompleted 0 [⟨"1", "a", false⟩, ⟨"2", "b", true⟩, ⟨"3", "c", false⟩]
        = [⟨"1", "a", false⟩, ⟨"3", "c", false⟩] ∧
    ∀ t ∈ clearCompleted 0 [⟨"1", "a", false⟩, ⟨"2", "b", true⟩, ⟨"3", "c", false⟩],
      t.completed = false :=
  ⟨by decide,
    (clearCompleted_spec 0 [⟨"1", "a", false⟩, ⟨"2", "b", true⟩, ⟨"3", "c", false⟩]).2.1⟩

/-- Claim C6: on a collection with pairwise-distinct ids containing
the toggled id, toggling twice restores the collection exactly (the
item's `completed` flag returns to its original value, all other items
and the order unchanged); toggling an id matching no item is a no-op.
The two dispatches may observe different clock values, which the
`TOGGLE_TODO` branch ignores. -/
theorem toggleTodo_spec (now now2 : Nat) (id : String) (state : List Todo) :
    ((state.map Todo.id).Nodup → id ∈ state.map Todo.id →
      toggleTodo now2 id (toggleTodo now id state) = state) ∧
    (id ∉ state.map Todo.id → toggleTodo now id state = state) :=
  ⟨fun _ _ => toggle_toggle now now2 id state, toggle_no_match now id state⟩

/-- Witness for claim C6 at a concrete two-item collection: toggling
`"1"` twice restores it, toggling the absent id `"9"` changes
nothing. -/
theorem toggleTodo_spec_witness :
    (([⟨"1", "a", false⟩, ⟨"2", "b", true⟩] : List Todo).map Todo.id).Nodup ∧
    "1" ∈ ([⟨"1", "a", false⟩, ⟨"2", "b", true⟩] : List Todo).map Todo.id ∧
    toggleTodo 1 "1" (toggleTodo 0 "1" [⟨"1", "a", false⟩, ⟨"2", "b", true⟩])
      = [⟨"1", "a", false⟩, ⟨"2", "b", true⟩] ∧
    "9" ∉ ([⟨"1", "a", false⟩, ⟨"2", "b", true⟩] : List Todo).map Todo.id ∧
    toggleTodo 0 "9" [⟨"1", "a", false⟩, ⟨"2", "b", true⟩]
      = [⟨"1", "a", false⟩, ⟨"2", "b", true⟩] :=
  ⟨by decide, by decide,
    (toggleTodo_spec 0 1 "1" [⟨"1", "a", false⟩, ⟨"2", "b", true⟩]).1 (by decide) (by decide),
    by decide,
    (toggleTodo_spec 0 1 "9" [⟨"1", "a", false⟩, ⟨"2", "b", true⟩]).2 (by decide)⟩

/-- Claim C7: the show-active and show-completed projections are
subsequences of the collection that partition it exactly (each item
lands in exactly one), their lengths sum to `activeCount` plus
`completedCount`, which in turn is the full collection length, and the
show-all projection is the collection itself. -/
theorem visibleItems_partition (todos : List Todo) :
    (filteredTodos todos .active).Sublist todos ∧
    (filteredTodos todos .completed).Sublist todos ∧
    (∀ t ∈ todos,
      (t ∈ filteredTodos todos .active ∧ t ∉ filteredTodos todos .completed) ∨
      (t ∈ filteredTodos todos .completed ∧ t ∉ filteredTodos todos .active)) ∧
    (filteredTodos todos .active).length + (filteredTodos todos .completed).length
      = activeCount todos + completedCount todos ∧
    activeCount todos + completedCount todos = todos.length ∧
    filteredTodos todos .all = todos := by
  refine ⟨List.filter_sublist todos, List.filter_sublist todos, ?_, rfl, ?_, rfl⟩
  · intro t ht
    by_cases hc : t.completed
    · right
      refine ⟨List.mem_filter.mpr ⟨ht, by simp [filteredTodos, hc]⟩, ?_⟩
      intro hmem
      have := (List.mem_filter.mp hmem).2
      simp [hc] at this
    · left
      refine ⟨List.mem_filter.mpr ⟨ht, by simp [filteredTodos, hc]⟩, ?_⟩
      intro hmem
      have := (List.mem_filter.mp hmem).2
      simp [hc] at this
  · simpa [activeCount, completedCount] using filter_completed_length todos

/-- Witness for claim C7: the partition law instantiated at a concrete
mixed collection. -/
theorem visibleItems_partition_witness :
    (filteredTodos [⟨"1", "a", false⟩, ⟨"2", "b", true⟩] .active).Sublist
      [⟨"1", "a", false⟩, ⟨"2", "b", true⟩] ∧
    (filteredTodos [⟨"1", "a", false⟩, ⟨"2", "b", true⟩] .completed).Sublist
      [⟨"1", "a", false⟩, ⟨"2", "b", true⟩] ∧
    (∀ t ∈ ([⟨"1", "a", false⟩, ⟨"2", "b", true⟩] : List Todo),
      (t ∈ filteredTodos [⟨"1", "a", false⟩, ⟨"2", "b", true⟩] .active ∧
        t ∉ filteredTodos [⟨"1", "a", false⟩, ⟨"2", "b", true⟩] .completed) ∨
      (t ∈ filteredTodos [⟨"1", "a", false⟩, ⟨"2", "b", true⟩] .completed ∧
        t ∉ filteredTodos [⟨"1", "a", false⟩, ⟨"2", "b", true⟩] .active)) ∧
    (filteredTodos [⟨"1", "a", false⟩, ⟨"2", "b", true⟩] .active).length
        + (filteredTodos [⟨"1", "a", false⟩, ⟨"2", "b", true⟩] .completed).length
      = activeCount [⟨"1", "a", false⟩, ⟨"2", "b", true⟩]
        + completedCount [⟨"1", "a", false⟩, ⟨"2", "b", true⟩] ∧
    activeCount [⟨"1", "a", false⟩, ⟨"2", "b", true⟩]
        + completedCount [⟨"1", "a", false⟩, ⟨"2", "b", true⟩]
      = ([⟨"1", "a", false⟩, ⟨"2", "b", true⟩] : List Todo).length ∧
    filteredTodos [⟨"1", "a", false⟩, ⟨"2", "b", true⟩] .all
      = [⟨"1", "a", false⟩, ⟨"2", "b", true⟩] :=
  visibleItems_partition [⟨"1", "a", false⟩, ⟨"2", "b", true⟩]

/-- Claim C8: Theme Store initialization returns the persisted string
when it is exactly `"light"` or `"dark"`, and returns `"light"` for
any other persisted string, for an absent value, and for a failed
read, raising no error. -/
theorem initTheme_spec (s : String) :
    ((s = "light" ∨ s = "dark") → initTheme (Except.ok (some s)) = s) ∧
    (s ≠ "light" → s ≠ "dark" → initTheme (Except.ok (some s)) = "light") ∧
    initTheme (Except.ok none) = "light" ∧
    initTheme (Except.error ()) = "light" := by
  refine ⟨?_, ?_, rfl, rfl⟩
  · intro h
    simp [initTheme, h]
  · intro h1 h2
    simp [initTheme, h1, h2]

/-- Witness for claim C8: a saved `"dark"` is kept, a saved `"blue"`
falls back to `"light"`. -/
theorem initTheme_spec_witness :
    initTheme (Except.ok (some "dark")) = "dark" ∧
    initTheme (Except.ok (some "blue")) = "light" :=
  ⟨(initTheme_spec "dark").1 (Or.inr rfl),
    (initTheme_spec "blue").2.1 (by decide) (by decide)⟩

/-- Claim C9: `deleteTodo` removes every item whose id equals the
argument — even when several items share that id — and keeps all other
items with their multiplicities in the original relative order. -/
theorem deleteTodo_spec (now : Nat) (id : String) (state : List Todo) :
    (deleteTodo now id state).Sublist state ∧
    (∀ t ∈ deleteTodo now id state, t.id ≠ id) ∧
    (∀ t ∈ state, t.id ≠ id → t ∈ deleteTodo now id state) ∧
    (∀ t : Todo, t.id ≠ id → (deleteTodo now id state).count t = state.count t) := by
  simp only [deleteTodo, todoReducer]
  refine ⟨List.filter_sublist state, ?_, ?_, ?_⟩
  · intro t ht
    have := (List.mem_filter.mp ht).2
    simpa [bne_iff_ne] using this
  · intro t ht h
    exact List.mem_filter.mpr ⟨ht, by simpa [bne_iff_ne] using h⟩
  · intro t h
    exact List.count_filter (by simpa [bne_iff_ne] using h)

/-- Witness for claim C9 at a collection in which two items share the
id `"1"`: both are deleted and the remaining item is kept. -/
theorem deleteTodo_spec_witness :
    deleteTodo 0 "1" [⟨"1", "a", false⟩, ⟨"2", "b", false⟩, ⟨"1", "c", true⟩]
        = [⟨"2", "b", false⟩] ∧
    ∀ t ∈ deleteTodo 0 "1" [⟨"1", "a", false⟩, ⟨"2", "b", false⟩, ⟨"1", "c", true⟩],
      t.id ≠ "1" :=
  ⟨by decide,
    (deleteTodo_spec 0 "1" [⟨"1", "a", false⟩, ⟨"2", "b", false⟩, ⟨"1", "c", true⟩]).2.1⟩

/-- Claim C10: `editTodo` with a non-blank new text and an id matching
no item leaves the collection exactly unchanged (a silent no-op, not
an error). -/
theorem editTodo_missing_id (now : Nat) (id newText : String) (state : List Todo)
    (htrim : jsTrim newText ≠ "") (h : id ∉ state.map Todo.id) :
    editTodo now id newText state = state := by
  simp only [editTodo, htrim, ne_eq, not_false_eq_true, if_true, todoReducer]
  have hpt : ∀ t ∈ state,
      (if t.id = id then { t with text := jsTrim newText } else t) = t := by
    intro t ht
    have hne : t.id ≠ id := fun he => h (List.mem_map.mpr ⟨t, ht, he⟩)
    simp [hne]
  rw [List.map_congr_left hpt, List.map_id']

/-- Witness for claim C10: editing the absent id `"9"` with non-blank
text leaves a one-item collection unchanged. -/
theorem editTodo_missing_id_witness :
    jsTrim " x " ≠ "" ∧
    "9" ∉ ([⟨"1", "a", false⟩] : List Todo).map Todo.id ∧
    editTodo 0 "9" " x " [⟨"1", "a", false⟩] = [⟨"1", "a", false⟩] :=
  ⟨by decide, by decide,
    editTodo_missing_id 0 "9" " x " [⟨"1", "a", false⟩] (by decide) (by decide)⟩
